import Mathlib

/-!
Shallow embedding of `chain/app/evm/evm.go` (the AnnChain EVM application):
dual-ledger (public / private) block execution, commit, receipt persistence
and commitment, admission control (`CheckTx`) and the query entry point.

Collaborator packages of the repository that are not part of the embedded
file (the bytecode executor `core.ApplyTransaction`, the versioned trie
store `estate.StateDB`, the RLP codec, the Merkle helper
`merkle.SimpleHashFromHashes`, the secure payload channel `commu`, the
query tag constants of `chain/types`) are modelled from the
specification; each such definition carries a doc comment starting with
`Modelled from the spec:`.  Fallible calls into those collaborators are
represented by an `Oracle` of outcomes, so one run of the embedded code is
a pure function of the application state, the block and the oracle.
-/

namespace AnnEvm

abbrev Addr := Nat

abbrev Bytes := List Nat

/-- Account record of one ledger (balance, nonce, code hash), as read and
written by `evm.go` through the `estate.StateDB` getters and setters. -/
structure Account where
  balance : Nat
  nonce : Nat
  codeHash : Bytes
  deriving Repr, DecidableEq

def Account.empty : Account := ⟨0, 0, []⟩

/-- Modelled from the spec: `estate.StateDB` (§4.1 World State Manager;
package `eth/core/state`, not under `src/`).  A world state is a finite
account map; the root identifying a state is the map itself, and the
well-known empty-root sentinel is the empty map.  Snapshot and revert are
realised in the block loop by saving and restoring the whole map, which
realises "discards all deltas recorded after the marker" exactly. -/
abbrev AccountMap := List (Addr × Account)

def AccountMap.find : AccountMap → Addr → Account
  | [], _ => Account.empty
  | (b, acc) :: rest, a => if b = a then acc else AccountMap.find rest a

def AccountMap.set : AccountMap → Addr → Account → AccountMap
  | [], a, acc => [(a, acc)]
  | (b, x) :: rest, a, acc =>
      if b = a then (b, acc) :: rest else (b, x) :: AccountMap.set rest a acc

def AccountMap.getNonce (m : AccountMap) (a : Addr) : Nat := (m.find a).nonce

def AccountMap.setNonce (m : AccountMap) (a : Addr) (n : Nat) : AccountMap :=
  m.set a { m.find a with nonce := n }

def AccountMap.getBalance (m : AccountMap) (a : Addr) : Nat := (m.find a).balance

/-- Transaction fields used by `evm.go`: nonce, cost components
(`Cost() = value + gas * gasPrice`), payload `data`, the EIP155-style
`Protected` flag, the destination (`To`, absent for contract creation) and
the transaction hash.  Modelled from the spec: sender recovery under each
of the two signature schemes (`etypes`, not under `src/`) is an opaque
per-transaction value, stored as the fields `pubFrom` / `privFrom`. -/
structure Tx where
  nonce : Nat
  value : Nat
  gas : Nat
  gasPrice : Nat
  data : Bytes
  Protected : Bool
  toAddr : Option Addr
  hash : Bytes
  pubFrom : Addr
  privFrom : Addr
  deriving Repr, DecidableEq

def Tx.cost (tx : Tx) : Nat := tx.value + tx.gas * tx.gasPrice

/-- Modelled from the spec: the two signature schemes
(`etypes.HomesteadSigner` for the public ledger,
`etypes.AnnsteadSigner` for the private ledger, assigned in `NewEVMApp`;
package `eth/core/types`, not under `src/`). -/
inductive Signer where
  | homestead
  | annstead
  deriving Repr, DecidableEq

def Signer.Sender : Signer → Tx → Addr
  | .homestead, tx => tx.pubFrom
  | .annstead, tx => tx.privFrom

/-- `app.publicSigner`, always a `HomesteadSigner` (evm.go:135). -/
def publicSigner : Signer := .homestead

/-- `app.privateSigner`, always an `AnnsteadSigner` (evm.go:136). -/
def privateSigner : Signer := .annstead

/-- Receipt fields set or read by `evm.go`: transaction hash, gas used,
status.  The remaining receipt fields are opaque `logs` bytes. -/
structure Receipt where
  txHash : Bytes
  gasUsed : Nat
  status : Nat
  logs : Bytes
  deriving Repr, DecidableEq

/-- Synthetic receipt for a protected transaction on a node with no secure
channel (evm.go:269-276): only `TxHash`, `GasUsed = 0`, `Status = 1` are
set; every other field is the zero value. -/
def EVMApp.makePublicPayloadHashReceipt (tx : Tx) : Receipt :=
  { txHash := tx.hash, gasUsed := 0, status := 1, logs := [] }

/-- Modelled from the spec: the canonical storage serialization of a
receipt (`rlp.EncodeToBytes` of `etypes.ReceiptForStorage`, §4.6; package
`eth/rlp`, not under `src/`), kept abstract as an injective wrapper. -/
inductive Serialized where
  | receiptBytes (r : Receipt)
  deriving Repr, DecidableEq

def serializeReceipt (r : Receipt) : Serialized := .receiptBytes r

/-- Modelled from the spec: the digest values produced by the binary
Merkle helper (§4.6; package `gemmill/modules/go-merkle`, not under
`src/`).  The collision-resistant hash is modelled as an injective tree
constructor; `nil` is the empty digest (the Go helper returns a nil byte
slice on an empty input, and `SaveReceipts` also reports a nil digest when
persistence fails). -/
inductive MerkleHash where
  | nil
  | leaf (b : Serialized)
  | node (l r : MerkleHash)
  deriving Repr, DecidableEq

/-- Recursion worker for the binary Merkle root: a list of length at
least two splits at `(n + 1) / 2` and the two subtree digests are paired.
The split strictly shrinks the list, so the structural fuel (instantiated
with the list length) is never exhausted. -/
def simpleHashBalanced : Nat → List Serialized → MerkleHash
  | _, [] => MerkleHash.nil
  | _, [x] => MerkleHash.leaf x
  | 0, _ => MerkleHash.nil
  | fuel + 1, l =>
      MerkleHash.node
        (simpleHashBalanced fuel (l.take ((l.length + 1) / 2)))
        (simpleHashBalanced fuel (l.drop ((l.length + 1) / 2)))

/-- Modelled from the spec: `merkle.SimpleHashFromHashes` (§4.6 "binary
Merkle root over the ordered byte sequence"; not under `src/`): empty
input gives the empty digest, a singleton is its own digest, a longer list
splits at `(n + 1) / 2` and hashes the pair of subtree digests. -/
def SimpleHashFromHashes (l : List Serialized) : MerkleHash :=
  simpleHashBalanced l.length l

/-- The receipt key namespace `ReceiptsPrefix = []byte("receipts-")`
(evm.go:82), as ASCII bytes. -/
def ReceiptsPrefixKey : Bytes := [114, 101, 99, 101, 105, 112, 116, 115, 45]

/-- Modelled from the spec: the flat receipt namespace of the backing
key-value store (`ethdb`, not under `src/`), as an association list with
in-place overwrite. -/
abbrev ReceiptDb := List (Bytes × Serialized)

def dbGet : ReceiptDb → Bytes → Option Serialized
  | [], _ => none
  | (k, v) :: rest, key => if k = key then some v else dbGet rest key

def dbSet : ReceiptDb → Bytes → Serialized → ReceiptDb
  | [], key, v => [(key, v)]
  | (k, x) :: rest, key, v =>
      if k = key then (k, v) :: rest else (k, x) :: dbSet rest key v

/-- `receiptBatch.Write()`: apply a batch of puts in order. -/
def writeBatch (db : ReceiptDb) (l : List (Bytes × Serialized)) : ReceiptDb :=
  l.foldl (fun acc kv => dbSet acc kv.1 kv.2) db

/-- Recomputation of the receipt commitment root from the persisted
store: look up each transaction hash (under the receipt key prefix) in
the given order and take the Merkle root of the serialized receipts
found. -/
def recomputeRoot (db : ReceiptDb) (txHashes : List Bytes) : MerkleHash :=
  SimpleHashFromHashes
    (txHashes.filterMap (fun h => dbGet db (ReceiptsPrefixKey ++ h)))

/-- Outcome of one `core.ApplyTransaction` call: failure with an error, or
success with the produced receipt and an opaque effect on the executing
ledger's accounts. -/
inductive ApplyOutcome where
  | fail (e : String)
  | ok (receipt : Receipt) (eff : AccountMap → AccountMap)

/-- Modelled from the spec: outcomes of every fallible collaborator call
site in `evm.go` (§2 treats the bytecode VM, the trie store, the secure
channel and the consensus-engine store as external).  A run of the
embedded code is deterministic relative to a fixed oracle. -/
structure Oracle where
  /-- Outcome of `core.ApplyTransaction` for the transaction at a given
  block index (evm.go:323). -/
  apply : Nat → ApplyOutcome
  /-- `currentPublicState.Commit(true)` succeeds (evm.go:404). -/
  commitPubOK : Bool
  /-- `currentPrivateState.Commit(true)` succeeds (evm.go:408). -/
  commitPrivOK : Bool
  /-- public `TrieDB().Commit` succeeds (evm.go:413). -/
  trieCommitPubOK : Bool
  /-- private `TrieDB().Commit` succeeds (evm.go:416). -/
  trieCommitPrivOK : Bool
  /-- `estate.New(appHash, ...)` for the confirmed public pointer
  succeeds (evm.go:421). -/
  newPubOK : Bool
  /-- `estate.New(privHash, ...)` for the confirmed private pointer
  succeeds (evm.go:425). -/
  newPrivOK : Bool
  /-- `estate.New` for `currentPublicState` in `OnExecute` succeeds
  (evm.go:381). -/
  newCurPubOK : Bool
  /-- `estate.New` for `currentPrivateState` in `OnExecute` succeeds
  (evm.go:384). -/
  newCurPrivOK : Bool
  /-- `receiptBatch.Write()` succeeds (evm.go:529); the per-put and
  rlp-encode failure paths of `SaveReceipts` collapse into this single
  store-failure flag. -/
  receiptWriteOK : Bool
  /-- `repPayload.Decode(tx.Data())` succeeds in `CheckTx` (evm.go:463). -/
  decodePayloadOK : Tx → Bool
  /-- `commu.SendPayload` result in `CheckTx` (evm.go:467): the
  content-addressed reference, or `none` on failure. -/
  sendPayload : Tx → Option Bytes
  /-- `rlp.DecodeBytes` of a query load into a transaction (evm.go:584,
  612). -/
  decodeTx : Bytes → Option Tx
  /-- `app.core.GetBlockMeta` succeeds for a given height (evm.go:647). -/
  blockMeta : Nat → Bool
  /-- `estate.New` for a historical query state succeeds (evm.go:659). -/
  estateNewQueryOK : Bool
  /-- Bytes returned by the read-only `core.ApplyMessage` simulation
  (evm.go:667). -/
  applyMessageRes : Bytes → Bytes
  /-- `app.core.Query` result for payload / raw-transaction queries
  (evm.go:717, 737). -/
  coreQuery : Bytes → Option Bytes

/-- Modelled from the spec: `core.ApplyTransaction` (the opaque bytecode
executor of §2 / §4.2 step 3; package `eth/core`, not under `src/`).  On
success it applies an opaque effect to the executing ledger and leaves the
sender's nonce exactly one above its pre-execution value (§3 invariant,
§4.2: the executing ledger performs the sender nonce bump itself); on
failure it reports the error and the caller discards the state. -/
def applyTransaction (out : ApplyOutcome) (st : AccountMap) (sender : Addr) :
    Except String (Receipt × AccountMap) :=
  match out with
  | .fail e => .error e
  | .ok r eff => .ok (r, AccountMap.setNonce (eff st) sender (st.getNonce sender + 1))

/-- `LastBlockInfo{Height, AppHash, PrivHash}` (evm.go:123-127), the
singleton persisted confirmed-state pointer record.  Roots are account
maps (see `AccountMap`); the byte-sentinel decoding of `getLastAppHash`
(empty bytes mean the empty trie root) is absorbed by the empty map. -/
structure LastBlockInfo where
  height : Int
  appHash : AccountMap
  privHash : AccountMap
  deriving Repr, DecidableEq

/-- The `EVMApp` fields relevant to execution, commit, admission and
queries (evm.go:92-121): the secure-channel host, the persisted pointer
record, the confirmed and current states of both ledgers, the two receipt
accumulators and the receipt namespace of the backing store.  The
confirmed pointers `publicState` / `privateState` are `*estate.StateDB`
pointers in the source: Go's `app.publicState, err = estate.New(...)`
assigns the call's return even on error, so a failed open overwrites the
pointer with the nil handle, modelled as `none` (the spec's `OpenAt`
"fails with StateUnavailable": it yields no handle). -/
structure EVMApp where
  secChanHost : String
  lastBlock : LastBlockInfo
  publicState : Option AccountMap
  privateState : Option AccountMap
  currentPublicState : AccountMap
  currentPrivateState : AccountMap
  publicReceipts : List Receipt
  privateReceipts : List Receipt
  receiptDb : ReceiptDb
  deriving Repr, DecidableEq

/-- `getLastAppHash` (evm.go:222-242): the confirmed roots of the two
ledgers from the persisted pointer record. -/
def EVMApp.getLastAppHash (app : EVMApp) : AccountMap × AccountMap :=
  (app.lastBlock.appHash, app.lastBlock.privHash)

/-- Block-execution context threaded through the per-transaction loop:
the two current ledgers, the two receipt accumulators
(`app.publicReceipts` / `app.privateReceipts`) and the valid / invalid
sets of the `ExecuteResult`. -/
structure ExecCtx where
  pub : AccountMap
  priv : AccountMap
  pubReceipts : List Receipt
  privReceipts : List Receipt
  valid : List Tx
  invalid : List (Tx × String)
  deriving Repr, DecidableEq

/-- The sender recovery performed inside the execution closure:
evm.go:300 `from, _ := app.publicSigner.Sender(tx)` — the public scheme
is used for every transaction, protected or not. -/
def execFuncSender (tx : Tx) : Addr := Signer.Sender publicSigner tx

/-- Result of the `execFunc` closure body for one transaction: the error
(if any), both ledgers as mutated so far, and the per-transaction receipt
buffers `temPublicReceipt` / `temPrivateReceipt`. -/
structure ExecOut where
  err : Option String
  pub : AccountMap
  priv : AccountMap
  temPub : List Receipt
  temPriv : List Receipt
  deriving Repr, DecidableEq

/-- The `execFunc` closure of `genExecFun` (evm.go:292-343).  `Prepare`
(per-transaction logging context) and the infallible re-encoding of the
already-decoded transaction (evm.go:294) have no observable effect here
and are elided.
* protected and a secure channel configured: bump the sender nonce on the
  public ledger, run the transaction on the private ledger;
* protected and no secure channel: bump the sender nonce on both ledgers,
  buffer the synthetic public receipt, do not execute;
* unprotected: bump the sender nonce on the private ledger, run the
  transaction on the public ledger. -/
def execFunc (o : Oracle) (secChan : Bool) (txIndex : Nat) (tx : Tx)
    (pub priv : AccountMap) : ExecOut :=
  let sender := execFuncSender tx
  if tx.Protected then
    if secChan then
      let pub1 := pub.setNonce sender (pub.getNonce sender + 1)
      match applyTransaction (o.apply txIndex) priv sender with
      | .error e => ⟨some e, pub1, priv, [], []⟩
      | .ok (r, priv1) => ⟨none, pub1, priv1, [], [r]⟩
    else
      let pub1 := pub.setNonce sender (pub.getNonce sender + 1)
      let priv1 := priv.setNonce sender (priv.getNonce sender + 1)
      ⟨none, pub1, priv1, [EVMApp.makePublicPayloadHashReceipt tx], []⟩
  else
    let priv1 := priv.setNonce sender (priv.getNonce sender + 1)
    match applyTransaction (o.apply txIndex) pub sender with
    | .error e => ⟨some e, pub, priv1, [], []⟩
    | .ok (r, pub1) => ⟨none, pub1, priv1, [r], []⟩

/-- The `endFunc` closure of `genExecFun` (evm.go:345-359): on error,
revert both ledgers to the snapshots taken at the start of the
transaction and record the transaction in the invalid set with its error;
on success, commit the mutated ledgers and flush the per-transaction
receipt buffers into the block accumulators. -/
def endFunc (tx : Tx) (snapPub snapPriv : AccountMap) (out : ExecOut)
    (c : ExecCtx) : ExecCtx :=
  match out.err with
  | some e =>
      { c with pub := snapPub, priv := snapPriv,
               invalid := c.invalid ++ [(tx, e)] }
  | none =>
      { c with pub := out.pub, priv := out.priv,
               privReceipts := c.privReceipts ++ out.temPriv,
               pubReceipts := c.pubReceipts ++ out.temPub,
               valid := c.valid ++ [tx] }

/-- One iteration of the block loop: take the per-transaction snapshots
(evm.go:284, 287; the whole-map copy realises the snapshot marker), run
`execFunc`, then `endFunc`. -/
def execTx (o : Oracle) (secChan : Bool) (txIndex : Nat) (tx : Tx)
    (c : ExecCtx) : ExecCtx :=
  endFunc tx c.pub c.priv (execFunc o secChan txIndex tx c.pub c.priv) c

/-- Modelled from the spec: the block-loop driver
`exeWithCPUParallelVeirfy` (§4.2 / §4.3; not under `src/`).  Sender
pre-recovery is concurrent but its results are consumed strictly in block
order, so its observable behavior is the sequential per-transaction loop:
for each transaction in block order, fresh begin / exec / end closures. -/
def execTxs (o : Oracle) (secChan : Bool) : List (Nat × Tx) → ExecCtx → ExecCtx
  | [], c => c
  | (i, tx) :: rest, c => execTxs o secChan rest (execTx o secChan i tx c)

/-- The `ExecuteResult` reported to the consensus engine (valid raw
transactions, invalid transactions with their errors). -/
structure ExecuteResult where
  validTxs : List Tx
  invalidTxs : List (Tx × String)
  deriving Repr, DecidableEq

/-- `OnExecute` (evm.go:374-400): open both current states from the
confirmed roots, run the block loop, report the valid / invalid sets.
The duplicate-counting loop of evm.go:389-398 writes only dead local
variables and is elided.  The receipt accumulators are carried over, not
cleared, exactly as in the source (they are cleared only in `OnCommit`). -/
def EVMApp.OnExecute (o : Oracle) (app : EVMApp) (txs : List Tx) :
    Except String ExecuteResult × EVMApp :=
  let roots := app.getLastAppHash
  if ¬ o.newCurPubOK then (.error "create StateDB failed", app)
  else if ¬ o.newCurPrivOK then
    (.error "create StateDB failed", { app with currentPublicState := roots.1 })
  else
    let c0 : ExecCtx :=
      ⟨roots.1, roots.2, app.publicReceipts, app.privateReceipts, [], []⟩
    let c := execTxs o (decide (app.secChanHost ≠ "")) txs.enum c0
    (.ok ⟨c.valid, c.invalid⟩,
      { app with currentPublicState := c.pub, currentPrivateState := c.priv,
                 publicReceipts := c.pubReceipts,
                 privateReceipts := c.privReceipts })

/-- `SaveReceipts` (evm.go:498-534): serialize and batch-put every public
receipt, collecting the serialized public receipts into `savedReceipts`;
serialize and batch-put every private receipt (not collected); write the
batch; return the Merkle root of `savedReceipts` together with the
updated receipt namespace. -/
def EVMApp.SaveReceipts (o : Oracle) (app : EVMApp) :
    Except String (MerkleHash × ReceiptDb) :=
  let savedReceipts := app.publicReceipts.map serializeReceipt
  let batch :=
    app.publicReceipts.map
      (fun r => (ReceiptsPrefixKey ++ r.txHash, serializeReceipt r)) ++
    app.privateReceipts.map
      (fun r => (ReceiptsPrefixKey ++ r.txHash, serializeReceipt r))
  if o.receiptWriteOK then
    .ok (SimpleHashFromHashes savedReceipts, writeBatch app.receiptDb batch)
  else
    .error "persist receipts failed"

/-- The `CommitResult` returned to the consensus engine. -/
structure CommitResult where
  appHash : AccountMap
  receiptsHash : MerkleHash
  deriving Repr, DecidableEq

/-- `OnCommit` (evm.go:403-447), step by step: commit both current
states (producing the new roots), commit both tries to the backing store,
reopen the confirmed public pointer at the new root, reopen the confirmed
private pointer at the new root, persist `LastBlockInfo`, persist the
receipts (a failure here is only logged: the digest stays nil), clear
both receipt accumulators, return `{AppHash, ReceiptsHash}`.  Any failing
step returns its error, leaving the state exactly as mutated so far; in
particular the two `estate.New` calls (evm.go:421, 425) assign their
return to the confirmed pointer field even on error, so a failed reopen
overwrites that pointer with the nil handle (`none`). -/
def EVMApp.OnCommit (o : Oracle) (app : EVMApp) (height : Int) :
    Except String CommitResult × EVMApp :=
  if ¬ o.commitPubOK then (.error "commit public state failed", app)
  else if ¬ o.commitPrivOK then (.error "commit private state failed", app)
  else
    let appHash := app.currentPublicState
    let privHash := app.currentPrivateState
    if ¬ o.trieCommitPubOK then (.error "trie commit public failed", app)
    else if ¬ o.trieCommitPrivOK then (.error "trie commit private failed", app)
    else if ¬ o.newPubOK then
      (.error "create public StateDB failed", { app with publicState := none })
    else
      let app1 := { app with publicState := some appHash }
      if ¬ o.newPrivOK then
        (.error "create private StateDB failed", { app1 with privateState := none })
      else
        let app2 := { app1 with privateState := some privHash,
                                lastBlock := ⟨height, appHash, privHash⟩ }
        let saved := app2.SaveReceipts o
        let rHash := match saved with
          | .error _ => MerkleHash.nil
          | .ok (h, _) => h
        let app3 := match saved with
          | .error _ => app2
          | .ok (_, db) => { app2 with receiptDb := db }
        let app4 := { app3 with publicReceipts := [], privateReceipts := [] }
        (.ok ⟨appHash, rHash⟩, app4)

/-- One full block: `OnExecute` then, if it succeeded, `OnCommit` — the
hook order driven by the consensus engine (§6). -/
def runBlock (o : Oracle) (app : EVMApp) (txs : List Tx) (height : Int) :
    Except String CommitResult × EVMApp :=
  match app.OnExecute o txs with
  | (.error e, app1) => (.error e, app1)
  | (.ok _, app1) => app1.OnCommit o height

/-- Modelled from the spec: the RLP re-encoding of a transaction returned
by `CheckTx` (`eth/rlp`, not under `src/`), kept as an injective
wrapper. -/
inductive Encoded where
  | rlpOf (tx : Tx)
  deriving Repr, DecidableEq

/-- The nonce and balance gate at the end of `CheckTx` (evm.go:483-495),
run against the confirmed state of the target ledger.  The first
`GetNonce` call dereferences the confirmed-state pointer: if that pointer
holds no handle (nil after a failed commit-time reopen), the dereference
panics, modelled as `none`. -/
def admitTx (app : EVMApp) (judgeState : Option AccountMap) (sender : Addr)
    (tx : Tx) : Option (Except String Encoded × EVMApp) :=
  match judgeState with
  | none => none
  | some judge =>
      if tx.nonce < judge.getNonce sender then
        some (.error "nonce lower than account nonce, transaction already exists",
          app)
      else if judge.getBalance sender < tx.cost then
        some (.error "not enough funds", app)
      else some (.ok (Encoded.rlpOf tx), app)

/-- `CheckTx` (evm.go:449-496) on an already-decoded transaction (the
`rlp.DecodeBytes` failure path rejects malformed bytes before any of
this).  Protected: recover the sender with the private scheme, decode the
`ReplacePayload`, and — only if a secure channel is configured — forward
the payload and replace the transaction data with the returned reference;
without a secure channel fail with the unsupported-private-tx error.
Unprotected: recover the sender with the public scheme.  Then gate on the
confirmed nonce and balance of the target ledger and return the
re-encoded (possibly rewritten) transaction.  No path writes any state;
the confirmed-state pointer is dereferenced only at the nonce check, so
`none` (a panic on a nil handle) arises only there. -/
def EVMApp.CheckTx (o : Oracle) (app : EVMApp) (tx : Tx) :
    Option (Except String Encoded × EVMApp) :=
  if tx.Protected then
    if ¬ o.decodePayloadOK tx then
      some (.error "replace payload decode failed", app)
    else if app.secChanHost ≠ "" then
      match o.sendPayload tx with
      | none => some (.error "send payload failed", app)
      | some ph =>
          admitTx app app.privateState (Signer.Sender privateSigner tx)
            { tx with data := ph }
    else some (.error "node private tx unsupported", app)
  else
    admitTx app app.publicState (Signer.Sender publicSigner tx) tx

/-- `EVMApp.Sender` (evm.go:604-609): the ledger-appropriate signature
scheme, used by the query path. -/
def EVMApp.Sender (tx : Tx) : Addr :=
  if tx.Protected then Signer.Sender privateSigner tx
  else Signer.Sender publicSigner tx

/-- Result codes of `gtypes.Result` as used by `evm.go`. -/
inductive ResultCode where
  | OK
  | BaseInvalidInput
  | InternalError
  deriving Repr, DecidableEq

/-- A `gtypes.Result`: a typed code plus opaque data bytes. -/
structure GResult where
  code : ResultCode
  data : Bytes
  deriving Repr, DecidableEq

/-- Modelled from the spec: the query action tag constants of
`chain/types` (not under `src/`), as distinct byte values. -/
def QueryType_Contract : Nat := 0

def QueryTypeContractByHeight : Nat := 1

def QueryType_Nonce : Nat := 2

def QueryType_Receipt : Nat := 3

def QueryType_Existence : Nat := 4

def QueryType_PayLoad : Nat := 5

def QueryType_TxRaw : Nat := 6

/-- Big-endian byte decoding (`binary.BigEndian.Uint64`, evm.go:562). -/
def bytesToNat (b : Bytes) : Nat := b.foldl (fun acc x => acc * 256 + x) 0

/-- `queryContract` (evm.go:611-673): decode the call transaction (typed
error on malformed load); at height 0 simulate against a defensive copy
of the current state, otherwise fetch the block meta of `height + 1`
(typed error if missing), reopen the historical state (typed error on
store failure) and simulate.  The simulation output is oracle-supplied
(the EVM itself is external). -/
def EVMApp.queryContract (o : Oracle) (load : Bytes) (height : Nat) : GResult :=
  match o.decodeTx load with
  | none => ⟨.BaseInvalidInput, []⟩
  | some _ =>
      if height = 0 then ⟨.OK, o.applyMessageRes load⟩
      else if ¬ o.blockMeta (height + 1) then ⟨.BaseInvalidInput, []⟩
      else if ¬ o.estateNewQueryOK then ⟨.BaseInvalidInput, []⟩
      else ⟨.OK, o.applyMessageRes load⟩

/-- `queryNonce` (evm.go:685-700): exactly 20 address bytes required;
reads the public ledger only, dereferencing the confirmed public pointer
(a nil handle would panic, modelled as `none`). -/
def EVMApp.queryNonce (app : EVMApp) (load : Bytes) : Option GResult :=
  if load.length ≠ 20 then some ⟨.BaseInvalidInput, []⟩
  else
    match app.publicState with
    | none => none
    | some st => some ⟨.OK, [st.getNonce (bytesToNat load)]⟩

/-- `queryReceipt` (evm.go:702-709): look up `"receipts-" ++ txHash` in
the store; a missing receipt is a typed internal error. -/
def EVMApp.queryReceipt (app : EVMApp) (load : Bytes) : GResult :=
  match dbGet app.receiptDb (ReceiptsPrefixKey ++ load) with
  | none => ⟨.InternalError, []⟩
  | some _ => ⟨.OK, []⟩

/-- `queryContractExistence` (evm.go:582-602): decode the transaction
(typed error on malformed load), then dereference `tx.To()`
unconditionally — a decoded contract-creation transaction (`To` absent)
is a nil-pointer dereference, modelled as `none` (process abort) — and
read the code hash from the flag-selected confirmed ledger (again a nil
state handle would panic). -/
def EVMApp.queryContractExistence (o : Oracle) (app : EVMApp) (load : Bytes) :
    Option GResult :=
  match o.decodeTx load with
  | none => some ⟨.BaseInvalidInput, []⟩
  | some tx =>
      match tx.toAddr with
      | none => none
      | some addr =>
          match (if tx.Protected then app.privateState else app.publicState) with
          | none => none
          | some st =>
              let hashBytes := (st.find addr).codeHash
              if tx.data = hashBytes then some ⟨.OK, [1]⟩ else some ⟨.OK, [0]⟩

/-- `queryTransaction` (evm.go:711-729): empty load is a typed error; a
failing consensus-store lookup is a typed internal error. -/
def EVMApp.queryTransaction (o : Oracle) (load : Bytes) : GResult :=
  match load with
  | [] => ⟨.BaseInvalidInput, []⟩
  | t :: rest =>
      match o.coreQuery (t :: rest) with
      | none => ⟨.InternalError, []⟩
      | some v => ⟨.OK, v⟩

/-- `queryPayLoad` (evm.go:731-748): same shape as `queryTransaction`. -/
def EVMApp.queryPayLoad (o : Oracle) (load : Bytes) : GResult :=
  match load with
  | [] => ⟨.BaseInvalidInput, []⟩
  | t :: rest =>
      match o.coreQuery (t :: rest) with
      | none => ⟨.InternalError, []⟩
      | some v => ⟨.OK, v⟩

/-- `Query` (evm.go:552-580): the entry point reads `query[0]` before any
length check — an empty query indexes out of range and panics, modelled
as `none`; every other input dispatches on the action tag (unknown tags
get a typed error, a by-height contract query needs at least 8 trailing
height bytes). -/
def EVMApp.Query (o : Oracle) (app : EVMApp) (q : Bytes) : Option GResult :=
  match q with
  | [] => none
  | action :: load =>
      if action = QueryType_Contract then some (EVMApp.queryContract o load 0)
      else if action = QueryTypeContractByHeight then
        if load.length < 8 then some ⟨.BaseInvalidInput, []⟩
        else some (EVMApp.queryContract o (load.take (load.length - 8))
          (bytesToNat (load.drop (load.length - 8))))
      else if action = QueryType_Nonce then app.queryNonce load
      else if action = QueryType_Receipt then some (app.queryReceipt load)
      else if action = QueryType_Existence then app.queryContractExistence o load
      else if action = QueryType_PayLoad then some (EVMApp.queryPayLoad o load)
      else if action = QueryType_TxRaw then some (EVMApp.queryTransaction o load)
      else some ⟨.BaseInvalidInput, []⟩

/-! Concrete instances used to evaluate the embedded code on explicit
inputs (counterexamples, and witnesses discharging the hypotheses of the
theorems below). -/

/-- A sample executed receipt. -/
def rA : Receipt := ⟨[1], 21000, 1, []⟩

/-- A second sample receipt with a different transaction hash. -/
def rB : Receipt := ⟨[2], 500, 1, []⟩

/-- An oracle on which every collaborator call succeeds. -/
def oAllOK : Oracle :=
  { apply := fun _ => .ok rA (fun m => m)
    commitPubOK := true
    commitPrivOK := true
    trieCommitPubOK := true
    trieCommitPrivOK := true
    newPubOK := true
    newPrivOK := true
    newCurPubOK := true
    newCurPrivOK := true
    receiptWriteOK := true
    decodePayloadOK := fun _ => true
    sendPayload := fun _ => some [9]
    decodeTx := fun _ => none
    blockMeta := fun _ => true
    estateNewQueryOK := true
    applyMessageRes := fun b => b
    coreQuery := fun b => some b }

/-- Oracle on which reopening the confirmed private state fails. -/
def oC2 : Oracle := { oAllOK with newPrivOK := false }

/-- Oracle on which the transaction execution itself fails. -/
def oFail : Oracle :=
  { oAllOK with apply := fun _ => .fail "apply transaction failed" }

/-- Oracle on which writing the receipt batch fails. -/
def oNoWrite : Oracle := { oAllOK with receiptWriteOK := false }

/-- The empty application state: no secure channel, genesis pointer,
empty ledgers, no receipts. -/
def appEmpty : EVMApp :=
  { secChanHost := ""
    lastBlock := ⟨0, [], []⟩
    publicState := some []
    privateState := some []
    currentPublicState := []
    currentPrivateState := []
    publicReceipts := []
    privateReceipts := []
    receiptDb := [] }

/-- A state holding one public and one private accumulated receipt. -/
def appC1 : EVMApp := { appEmpty with publicReceipts := [rA], privateReceipts := [rB] }

/-- A state whose in-progress public root differs from the confirmed
one, making a commit-time pointer swap observable. -/
def appC2 : EVMApp := { appEmpty with currentPublicState := [(1, ⟨0, 5, []⟩)] }

/-- A state whose confirmed public ledger has account 1 at nonce 3 with
zero balance. -/
def appC8 : EVMApp := { appEmpty with publicState := some [(1, ⟨0, 3, []⟩)] }

/-- A state differing from `appEmpty` only in fields irrelevant to block
execution (confirmed pointers and the receipt namespace). -/
def appIrrel : EVMApp :=
  { appEmpty with publicState := some [(3, ⟨9, 9, []⟩)]
                  privateState := some [(4, ⟨8, 8, []⟩)]
                  currentPublicState := [(5, ⟨7, 7, []⟩)]
                  receiptDb := [([0], serializeReceipt rB)] }

/-- An unprotected sample transaction sent by account 1. -/
def txU : Tx :=
  { nonce := 0, value := 1, gas := 2, gasPrice := 3, data := []
    Protected := false, toAddr := some 5, hash := [3]
    pubFrom := 1, privFrom := 1 }

/-- A protected sample transaction whose public-scheme and
private-scheme recoveries disagree. -/
def txP : Tx :=
  { nonce := 0, value := 0, gas := 0, gasPrice := 0, data := []
    Protected := true, toAddr := none, hash := [7]
    pubFrom := 1, privFrom := 2 }

/-- A sample execution context with two funded accounts. -/
def ctx0 : ExecCtx := ⟨[(1, ⟨50, 0, []⟩)], [(2, ⟨60, 4, []⟩)], [], [], [], []⟩

/-! Basic lemmas about the account map and the receipt store. -/

theorem AccountMap.find_set_self (m : AccountMap) (a : Addr) (acc : Account) :
    (m.set a acc).find a = acc := by
  induction m with
  | nil => simp [AccountMap.set, AccountMap.find]
  | cons p rest ih =>
      obtain ⟨b, x⟩ := p
      by_cases h : b = a <;> simp [AccountMap.set, AccountMap.find, h, ih]

theorem AccountMap.find_set_ne (m : AccountMap) (a b : Addr) (acc : Account)
    (h : b ≠ a) : (m.set a acc).find b = m.find b := by
  induction m with
  | nil => simp [AccountMap.set, AccountMap.find, Ne.symm h]
  | cons p rest ih =>
      obtain ⟨k, x⟩ := p
      by_cases hk : k = a
      · subst hk
        simp [AccountMap.set, AccountMap.find, Ne.symm h]
      · simp [AccountMap.set, AccountMap.find, hk, ih]

theorem AccountMap.getNonce_setNonce_self (m : AccountMap) (a : Addr) (n : Nat) :
    (m.setNonce a n).getNonce a = n := by
  simp [AccountMap.getNonce, AccountMap.setNonce, AccountMap.find_set_self]

theorem AccountMap.getNonce_setNonce_ne (m : AccountMap) (a b : Addr) (n : Nat)
    (h : b ≠ a) : (m.setNonce a n).getNonce b = m.getNonce b := by
  simp [AccountMap.getNonce, AccountMap.setNonce,
    AccountMap.find_set_ne _ _ _ _ h]

theorem dbGet_dbSet_self (m : ReceiptDb) (k : Bytes) (v : Serialized) :
    dbGet (dbSet m k v) k = some v := by
  induction m with
  | nil => simp [dbSet, dbGet]
  | cons p rest ih =>
      obtain ⟨b, x⟩ := p
      by_cases h : b = k <;> simp [dbSet, dbGet, h, ih]

theorem dbGet_dbSet_ne (m : ReceiptDb) (k q : Bytes) (v : Serialized)
    (h : q ≠ k) : dbGet (dbSet m k v) q = dbGet m q := by
  induction m with
  | nil => simp [dbSet, dbGet, Ne.symm h]
  | cons p rest ih =>
      obtain ⟨b, x⟩ := p
      by_cases hb : b = k
      · subst hb
        simp [dbSet, dbGet, Ne.symm h]
      · simp [dbSet, dbGet, hb, ih]

theorem writeBatch_cons (db : ReceiptDb) (p : Bytes × Serialized)
    (l : List (Bytes × Serialized)) :
    writeBatch db (p :: l) = writeBatch (dbSet db p.1 p.2) l := rfl

theorem writeBatch_append (db : ReceiptDb) (l1 l2 : List (Bytes × Serialized)) :
    writeBatch db (l1 ++ l2) = writeBatch (writeBatch db l1) l2 := by
  simp [writeBatch, List.foldl_append]

theorem dbGet_writeBatch_of_ne (db : ReceiptDb)
    (l : List (Bytes × Serialized)) (k : Bytes)
    (h : ∀ p ∈ l, p.1 ≠ k) : dbGet (writeBatch db l) k = dbGet db k := by
  induction l generalizing db with
  | nil => rfl
  | cons p rest ih =>
      rw [writeBatch_cons, ih _ (fun q hq => h q (by simp [hq])),
        dbGet_dbSet_ne _ _ _ _ (Ne.symm (h p (by simp)))]

theorem dbGet_writeBatch_last (db : ReceiptDb)
    (l1 l2 : List (Bytes × Serialized)) (k : Bytes) (v : Serialized)
    (h : ∀ p ∈ l2, p.1 ≠ k) :
    dbGet (writeBatch db (l1 ++ (k, v) :: l2)) k = some v := by
  rw [writeBatch_append, writeBatch_cons,
    dbGet_writeBatch_of_ne _ _ _ h, dbGet_dbSet_self]

theorem filterMap_map_eq_map_of_mem {α β γ : Type} (l : List α) (t : α → β)
    (f : β → Option γ) (g : α → γ) (h : ∀ a ∈ l, f (t a) = some (g a)) :
    (l.map t).filterMap f = l.map g := by
  induction l with
  | nil => rfl
  | cons a rest ih =>
      simp [List.filterMap_cons, h a (by simp),
        ih (fun b hb => h b (by simp [hb]))]

/-- C4: a transaction whose execution fails leaves both ledgers exactly
at their pre-transaction snapshot (any nonce bump undone), is appended to
the invalid set together with its error, and the block loop continues
with the remaining transactions instead of aborting. -/
theorem c4_failed_tx_reverts_and_continues (o : Oracle) (sc : Bool) (i : Nat)
    (tx : Tx) (rest : List (Nat × Tx)) (c : ExecCtx) (e : String)
    (hf : (execFunc o sc i tx c.pub c.priv).err = some e) :
    execTx o sc i tx c = { c with invalid := c.invalid ++ [(tx, e)] } ∧
    execTxs o sc ((i, tx) :: rest) c =
      execTxs o sc rest { c with invalid := c.invalid ++ [(tx, e)] } := by
  have h1 : execTx o sc i tx c = { c with invalid := c.invalid ++ [(tx, e)] } := by
    unfold execTx endFunc
    rw [hf]
  constructor
  · exact h1
  · show execTxs o sc rest (execTx o sc i tx c) = _
    rw [h1]

/-- Witness for C4: a concrete transaction whose execution fails is
reverted, reported invalid, and the loop goes on. -/
theorem c4_failed_tx_reverts_and_continues_witness :
    execTx oFail true 0 txU ctx0 =
      { ctx0 with invalid := ctx0.invalid ++ [(txU, "apply transaction failed")] } ∧
    execTxs oFail true [(0, txU)] ctx0 =
      execTxs oFail true []
        { ctx0 with invalid := ctx0.invalid ++ [(txU, "apply transaction failed")] } :=
  c4_failed_tx_reverts_and_continues oFail true 0 txU [] ctx0
    "apply transaction failed" rfl

/-- C5: every successfully processed transaction increments the sender
nonce by exactly one on both ledgers (the sender as recovered inside the
execution closure, evm.go:300), whichever ledger executed it. -/
theorem c5_sender_nonce_both_ledgers (o : Oracle) (sc : Bool) (i : Nat)
    (tx : Tx) (c : ExecCtx)
    (hs : (execFunc o sc i tx c.pub c.priv).err = none) :
    ((execTx o sc i tx c).pub).getNonce (execFuncSender tx) =
      c.pub.getNonce (execFuncSender tx) + 1 ∧
    ((execTx o sc i tx c).priv).getNonce (execFuncSender tx) =
      c.priv.getNonce (execFuncSender tx) + 1 := by
  unfold execTx endFunc
  rw [hs]
  unfold execFunc applyTransaction at hs ⊢
  cases hp : tx.Protected <;> cases hsc : sc <;> cases hap : o.apply i <;>
    simp_all [AccountMap.getNonce_setNonce_self]

/-- Witness for C5 at a concrete successful transaction. -/
theorem c5_sender_nonce_both_ledgers_witness :
    ((execTx oAllOK true 0 txU ctx0).pub).getNonce (execFuncSender txU) =
      ctx0.pub.getNonce (execFuncSender txU) + 1 ∧
    ((execTx oAllOK true 0 txU ctx0).priv).getNonce (execFuncSender txU) =
      ctx0.priv.getNonce (execFuncSender txU) + 1 :=
  c5_sender_nonce_both_ledgers oAllOK true 0 txU ctx0 rfl

/-- C6: a protected transaction on a node with no secure channel is not
executed (the right-hand side below never consults the execution oracle):
the sender nonce is bumped on both ledgers, exactly one synthetic receipt
— zero gas used, success status — is appended to the public accumulator,
the transaction is reported valid, and the loop moves on with no other
change. -/
theorem c6_protected_no_channel (o : Oracle) (i : Nat) (tx : Tx) (c : ExecCtx)
    (hp : tx.Protected = true) :
    execTx o false i tx c =
      { c with
          pub := c.pub.setNonce (execFuncSender tx)
            (c.pub.getNonce (execFuncSender tx) + 1)
          priv := c.priv.setNonce (execFuncSender tx)
            (c.priv.getNonce (execFuncSender tx) + 1)
          pubReceipts := c.pubReceipts ++ [EVMApp.makePublicPayloadHashReceipt tx]
          valid := c.valid ++ [tx] } ∧
    (EVMApp.makePublicPayloadHashReceipt tx).gasUsed = 0 ∧
    (EVMApp.makePublicPayloadHashReceipt tx).status = 1 := by
  refine ⟨?_, rfl, rfl⟩
  unfold execTx execFunc endFunc
  simp [hp]

/-- Witness for C6 at a concrete protected transaction. -/
theorem c6_protected_no_channel_witness :
    execTx oAllOK false 0 txP ctx0 =
      { ctx0 with
          pub := ctx0.pub.setNonce (execFuncSender txP)
            (ctx0.pub.getNonce (execFuncSender txP) + 1)
          priv := ctx0.priv.setNonce (execFuncSender txP)
            (ctx0.priv.getNonce (execFuncSender txP) + 1)
          pubReceipts := ctx0.pubReceipts ++ [EVMApp.makePublicPayloadHashReceipt txP]
          valid := ctx0.valid ++ [txP] } ∧
    (EVMApp.makePublicPayloadHashReceipt txP).gasUsed = 0 ∧
    (EVMApp.makePublicPayloadHashReceipt txP).status = 1 :=
  c6_protected_no_channel oAllOK 0 txP ctx0 rfl

/-- C7 as stated is false: inside the execution closure the sender of a
protected transaction is recovered with the **public** scheme
(evm.go:300), not the private one; `txP` is protected and its two scheme
recoveries differ, yet execution uses the public recovery. -/
theorem c7_counterexample :
    txP.Protected = true ∧
    execFuncSender txP ≠ Signer.Sender privateSigner txP :=
  ⟨rfl, by decide⟩

/-- C7 amended: during block execution the sender of **every**
transaction is recovered with the public scheme; the ledger-appropriate
choice (private scheme for protected transactions, public otherwise) is
made only by the query-path helper `Sender` (evm.go:604-609).  On the
degraded protected path the nonce bump therefore lands on the
public-scheme address: when the two recoveries differ, the
private-scheme address is untouched on the private ledger. -/
theorem c7_sender_scheme (tx : Tx) :
    execFuncSender tx = Signer.Sender publicSigner tx ∧
    (tx.Protected = true → EVMApp.Sender tx = Signer.Sender privateSigner tx) ∧
    (tx.Protected = false → EVMApp.Sender tx = Signer.Sender publicSigner tx) ∧
    (∀ (o : Oracle) (i : Nat) (c : ExecCtx),
      tx.Protected = true → tx.pubFrom ≠ tx.privFrom →
      ((execTx o false i tx c).priv).getNonce tx.privFrom =
        c.priv.getNonce tx.privFrom) := by
  refine ⟨rfl, ?_, ?_, ?_⟩
  · intro h
    simp [EVMApp.Sender, h]
  · intro h
    simp [EVMApp.Sender, h]
  · intro o i c hp hne
    unfold execTx execFunc endFunc
    simp only [hp, if_true]
    simp [AccountMap.getNonce_setNonce_ne _ _ _ _ (Ne.symm hne),
      execFuncSender, publicSigner, Signer.Sender]

/-- Witness for C7 amended at the concrete protected transaction whose
scheme recoveries differ. -/
theorem c7_sender_scheme_witness :
    EVMApp.Sender txP = Signer.Sender privateSigner txP ∧
    ((execTx oAllOK false 0 txP ctx0).priv).getNonce txP.privFrom =
      ctx0.priv.getNonce txP.privFrom :=
  ⟨(c7_sender_scheme txP).2.1 rfl,
   (c7_sender_scheme txP).2.2.2 oAllOK 0 ctx0 rfl (by decide)⟩

/-- C1 as stated is false: `SaveReceipts` collects only the **public**
receipts into `savedReceipts` (evm.go:499-513); the private receipts are
persisted but never hashed.  With one public and one private receipt the
returned root is the digest of the public receipt alone and differs from
the Merkle root over public-then-private. -/
theorem c1_counterexample :
    (EVMApp.SaveReceipts oAllOK appC1).toOption.map Prod.fst =
      some (SimpleHashFromHashes (appC1.publicReceipts.map serializeReceipt)) ∧
    SimpleHashFromHashes (appC1.publicReceipts.map serializeReceipt) ≠
      SimpleHashFromHashes
        ((appC1.publicReceipts ++ appC1.privateReceipts).map serializeReceipt) :=
  ⟨rfl, by decide⟩

/-- C1 amended: the receipt commitment root returned at commit time is
the binary Merkle root over the ordered serialized **public** receipts
only (in block order); private receipts are persisted but are not part of
the root.  Recomputing the root from the persisted store — looking up the
public receipts' transaction hashes in block order — reproduces it
byte-for-byte, provided transaction hashes do not collide. -/
theorem c1_receipt_root_public_only (o : Oracle) (app : EVMApp)
    (hw : o.receiptWriteOK = true)
    (hnd : (app.publicReceipts.map Receipt.txHash).Nodup)
    (hdisj : ∀ r ∈ app.privateReceipts, ∀ q ∈ app.publicReceipts,
      r.txHash ≠ q.txHash) :
    ∃ db, EVMApp.SaveReceipts o app =
        .ok (SimpleHashFromHashes (app.publicReceipts.map serializeReceipt), db) ∧
      recomputeRoot db (app.publicReceipts.map Receipt.txHash) =
        SimpleHashFromHashes (app.publicReceipts.map serializeReceipt) := by
  refine ⟨writeBatch app.receiptDb
      (app.publicReceipts.map
        (fun r => (ReceiptsPrefixKey ++ r.txHash, serializeReceipt r)) ++
       app.privateReceipts.map
        (fun r => (ReceiptsPrefixKey ++ r.txHash, serializeReceipt r))), ?_, ?_⟩
  · simp [EVMApp.SaveReceipts, hw]
  · unfold recomputeRoot
    rw [filterMap_map_eq_map_of_mem]
    intro r hr
    obtain ⟨l1, l2, hsplit⟩ := List.append_of_mem hr
    have hndc := hnd
    rw [hsplit, List.map_append, List.map_cons] at hndc
    have hnd2 : Receipt.txHash r ∉ l2.map Receipt.txHash :=
      (List.nodup_cons.mp (List.nodup_append.mp hndc).2.1).1
    have hbatch :
        app.publicReceipts.map
          (fun q => (ReceiptsPrefixKey ++ q.txHash, serializeReceipt q)) ++
        app.privateReceipts.map
          (fun q => (ReceiptsPrefixKey ++ q.txHash, serializeReceipt q)) =
        l1.map (fun q => (ReceiptsPrefixKey ++ q.txHash, serializeReceipt q)) ++
          ((ReceiptsPrefixKey ++ r.txHash, serializeReceipt r) ::
            (l2.map (fun q => (ReceiptsPrefixKey ++ q.txHash, serializeReceipt q)) ++
             app.privateReceipts.map
               (fun q => (ReceiptsPrefixKey ++ q.txHash, serializeReceipt q)))) := by
      rw [hsplit]
      simp
    rw [hbatch]
    apply dbGet_writeBatch_last
    intro p hp
    rcases List.mem_append.mp hp with hp2 | hpv
    · obtain ⟨q, hq, rfl⟩ := List.mem_map.mp hp2
      intro habs
      apply hnd2
      have hqr : q.txHash = r.txHash := List.append_cancel_left habs
      exact hqr ▸ List.mem_map_of_mem Receipt.txHash hq
    · obtain ⟨q, hq, rfl⟩ := List.mem_map.mp hpv
      intro habs
      exact hdisj q hq r hr (List.append_cancel_left habs)

/-- Witness for C1 amended at a concrete state with one public and one
private receipt. -/
theorem c1_receipt_root_public_only_witness :
    ∃ db, EVMApp.SaveReceipts oAllOK appC1 =
        .ok (SimpleHashFromHashes (appC1.publicReceipts.map serializeReceipt), db) ∧
      recomputeRoot db (appC1.publicReceipts.map Receipt.txHash) =
        SimpleHashFromHashes (appC1.publicReceipts.map serializeReceipt) :=
  c1_receipt_root_public_only oAllOK appC1 rfl (by decide) (by decide)

/-- C2 as stated is false: when reopening the confirmed **private**
pointer fails (evm.go:425-428) after the confirmed public pointer was
already replaced (evm.go:421), `OnCommit` returns an error with the
public pointer swapped to the new root and the private pointer
overwritten with the nil handle of the failed `estate.New` call — the
two confirmed pointers did not move together, and neither previous
confirmed state is left intact. -/
theorem c2_counterexample :
    (EVMApp.OnCommit oC2 appC2 1).1 = .error "create private StateDB failed" ∧
    (EVMApp.OnCommit oC2 appC2 1).2.publicState ≠ appC2.publicState ∧
    (EVMApp.OnCommit oC2 appC2 1).2.publicState =
      some appC2.currentPublicState ∧
    (EVMApp.OnCommit oC2 appC2 1).2.privateState = none :=
  ⟨rfl, by decide, rfl, rfl⟩

/-- C2 amended: every commit failure surfaces an error and leaves the
persisted pointer record (`LastBlockInfo`), the receipt store and the
receipt accumulators unchanged.  Failures up to and including the trie
commits leave both in-memory confirmed pointers unchanged; a failure
reopening the new public state overwrites the public pointer with no
handle (private pointer unchanged); a failure reopening the new private
state leaves the public pointer already swapped to the freshly committed
public root and overwrites the private pointer with no handle.  Only on
success do both pointers and the pointer record advance together. -/
theorem c2_commit_atomicity (o : Oracle) (app : EVMApp) (h : Int) :
    (∀ e app2, EVMApp.OnCommit o app h = (.error e, app2) →
      app2.lastBlock = app.lastBlock ∧
      app2.receiptDb = app.receiptDb ∧
      app2.publicReceipts = app.publicReceipts ∧
      app2.privateReceipts = app.privateReceipts ∧
      ((app2.publicState = app.publicState ∧
          app2.privateState = app.privateState) ∨
        (o.newPubOK = false ∧ app2.publicState = none ∧
          app2.privateState = app.privateState) ∨
        (o.newPrivOK = false ∧
          app2.publicState = some app.currentPublicState ∧
          app2.privateState = none))) ∧
    (∀ res app2, EVMApp.OnCommit o app h = (.ok res, app2) →
      app2.publicState = some app.currentPublicState ∧
      app2.privateState = some app.currentPrivateState ∧
      app2.lastBlock = ⟨h, app.currentPublicState, app.currentPrivateState⟩ ∧
      res.appHash = app.currentPublicState) := by
  constructor
  · intro e app2 hyp
    simp only [EVMApp.OnCommit] at hyp
    split_ifs at hyp <;>
      · injection hyp with hA hB
        subst hB
        simp_all
  · intro res app2 hyp
    simp only [EVMApp.OnCommit] at hyp
    split_ifs at hyp <;>
      first
        | (rw [Prod.mk.injEq] at hyp
           obtain ⟨hres, hB⟩ := hyp
           subst hB
           rw [Except.ok.injEq] at hres
           subst hres
           refine ⟨?_, ?_, ?_, ?_⟩ <;> split <;> simp)
        | (injection hyp with hA hB
           injection hA)

/-- Witness for C2 amended: a fully successful commit advances both
confirmed pointers and the pointer record together. -/
theorem c2_commit_atomicity_witness :
    (EVMApp.OnCommit oAllOK appC2 1).2.publicState =
      some appC2.currentPublicState ∧
    (EVMApp.OnCommit oAllOK appC2 1).2.privateState =
      some appC2.currentPrivateState ∧
    (EVMApp.OnCommit oAllOK appC2 1).2.lastBlock =
      ⟨1, appC2.currentPublicState, appC2.currentPrivateState⟩ ∧
    (⟨appC2.currentPublicState, MerkleHash.nil⟩ : CommitResult).appHash =
      appC2.currentPublicState := by
  have hrun : EVMApp.OnCommit oAllOK appC2 1 =
      ((.ok ⟨appC2.currentPublicState, MerkleHash.nil⟩ : Except String CommitResult),
        (EVMApp.OnCommit oAllOK appC2 1).2) :=
    Prod.ext rfl rfl
  exact (c2_commit_atomicity oAllOK appC2 1).2
    ⟨appC2.currentPublicState, MerkleHash.nil⟩ _ hrun

/-- C10: when persisting the block's receipts fails inside `OnCommit`
(after the pointer swap), the failure is only logged: both receipt
accumulators are still cleared, the store is unchanged, and a successful
commit result with an empty receipts digest is returned instead of an
error (evm.go:433-447). -/
theorem c10_receipts_persist_failure_only_logged (o : Oracle) (app : EVMApp)
    (h : Int) (h1 : o.commitPubOK = true) (h2 : o.commitPrivOK = true)
    (h3 : o.trieCommitPubOK = true) (h4 : o.trieCommitPrivOK = true)
    (h5 : o.newPubOK = true) (h6 : o.newPrivOK = true)
    (hw : o.receiptWriteOK = false) :
    (EVMApp.OnCommit o app h).1 =
      .ok ⟨app.currentPublicState, MerkleHash.nil⟩ ∧
    (EVMApp.OnCommit o app h).2.publicReceipts = [] ∧
    (EVMApp.OnCommit o app h).2.privateReceipts = [] ∧
    (EVMApp.OnCommit o app h).2.receiptDb = app.receiptDb := by
  simp [EVMApp.OnCommit, EVMApp.SaveReceipts, h1, h2, h3, h4, h5, h6, hw]

/-- Witness for C10 at a concrete state carrying receipts and a failing
receipt write. -/
theorem c10_receipts_persist_failure_only_logged_witness :
    (EVMApp.OnCommit oNoWrite appC1 1).1 =
      .ok ⟨appC1.currentPublicState, MerkleHash.nil⟩ ∧
    (EVMApp.OnCommit oNoWrite appC1 1).2.publicReceipts = [] ∧
    (EVMApp.OnCommit oNoWrite appC1 1).2.privateReceipts = [] ∧
    (EVMApp.OnCommit oNoWrite appC1 1).2.receiptDb = appC1.receiptDb :=
  c10_receipts_persist_failure_only_logged oNoWrite appC1 1
    rfl rfl rfl rfl rfl rfl rfl

/-- The returned result and the advanced pointer record of `OnCommit`
depend only on the current states, the receipt accumulators and the
prior pointer record. -/
theorem OnCommit_congr (o : Oracle) (h : Int) (s1 s2 : EVMApp)
    (h1 : s1.currentPublicState = s2.currentPublicState)
    (h2 : s1.currentPrivateState = s2.currentPrivateState)
    (h3 : s1.publicReceipts = s2.publicReceipts)
    (h4 : s1.privateReceipts = s2.privateReceipts)
    (h5 : s1.lastBlock = s2.lastBlock) :
    (EVMApp.OnCommit o s1 h).1 = (EVMApp.OnCommit o s2 h).1 ∧
    (EVMApp.OnCommit o s1 h).2.lastBlock = (EVMApp.OnCommit o s2 h).2.lastBlock := by
  cases hw : o.receiptWriteOK <;>
    simp [EVMApp.OnCommit, EVMApp.SaveReceipts, hw, h1, h2, h3, h4, h5] <;>
    split_ifs <;> simp [h5]

/-- `OnExecute` when both current states open successfully. -/
theorem OnExecute_ok (o : Oracle) (app : EVMApp) (txs : List Tx)
    (hcp : o.newCurPubOK = true) (hcv : o.newCurPrivOK = true) :
    EVMApp.OnExecute o app txs =
      (let c := execTxs o (decide (app.secChanHost ≠ "")) txs.enum
        ⟨app.lastBlock.appHash, app.lastBlock.privHash,
         app.publicReceipts, app.privateReceipts, [], []⟩
       (.ok ⟨c.valid, c.invalid⟩,
        { app with currentPublicState := c.pub, currentPrivateState := c.priv,
                   publicReceipts := c.pubReceipts,
                   privateReceipts := c.privReceipts })) := by
  simp [EVMApp.OnExecute, EVMApp.getLastAppHash, hcp, hcv]

/-- C3: block execution is deterministic — for a fixed collaborator
oracle, the commit result (public root and receipt root) and the advanced
pointer record (which carries the private root) are a function of the
ordered block, the confirmed starting roots, the carried-over receipt
accumulators and the secure-channel configuration alone; two runs from
states agreeing on those inputs produce identical outputs whatever the
rest of the state holds. -/
theorem c3_execution_deterministic (o : Oracle) (txs : List Tx) (h : Int)
    (a1 a2 : EVMApp)
    (hlb : a1.lastBlock = a2.lastBlock)
    (hpr : a1.publicReceipts = a2.publicReceipts)
    (hvr : a1.privateReceipts = a2.privateReceipts)
    (hsc : a1.secChanHost = a2.secChanHost) :
    (runBlock o a1 txs h).1 = (runBlock o a2 txs h).1 ∧
    (runBlock o a1 txs h).2.lastBlock = (runBlock o a2 txs h).2.lastBlock := by
  by_cases hcp : o.newCurPubOK
  · by_cases hcv : o.newCurPrivOK
    · simp only [runBlock, OnExecute_ok o a1 txs hcp hcv,
        OnExecute_ok o a2 txs hcp hcv]
      rw [hlb, hpr, hvr, hsc]
      exact OnCommit_congr o h _ _ (by simp) (by simp) (by simp) (by simp)
        (by simp [hlb])
    · have hcv2 : o.newCurPrivOK = false := by simpa using hcv
      simp [runBlock, EVMApp.OnExecute, EVMApp.getLastAppHash, hcp, hcv2, hlb]
  · have hcp2 : o.newCurPubOK = false := by simpa using hcp
    simp [runBlock, EVMApp.OnExecute, EVMApp.getLastAppHash, hcp2, hlb]

/-- Witness for C3: two states differing in their confirmed pointers and
receipt namespace but agreeing on the execution-relevant fields commit
the same result for the same block. -/
theorem c3_execution_deterministic_witness :
    (runBlock oAllOK appEmpty [txU] 1).1 = (runBlock oAllOK appIrrel [txU] 1).1 ∧
    (runBlock oAllOK appEmpty [txU] 1).2.lastBlock =
      (runBlock oAllOK appIrrel [txU] 1).2.lastBlock :=
  c3_execution_deterministic oAllOK [txU] 1 appEmpty appIrrel rfl rfl rfl rfl

/-- C8: whenever the target ledger's confirmed pointer holds a state
handle (`judge` — the pointer can lack one only after a failed
commit-time reopen, where the Go dereference would panic), `CheckTx`
never mutates the confirmed state; it returns an error for every
transaction whose nonce is strictly below the confirmed nonce of the
sender on the target ledger, and for every transaction whose cost
(value + gas·gasPrice) exceeds the sender's confirmed balance; and on
success it returns the re-encoded transaction, rewritten (payload
replaced by the secure-channel reference) exactly when protected. -/
theorem c8_checktx_admission_gate (o : Oracle) (app : EVMApp) (tx : Tx)
    (judge : AccountMap)
    (hj : (if tx.Protected then app.privateState else app.publicState) =
      some judge) :
    (∀ res, EVMApp.CheckTx o app tx = some res → res.2 = app) ∧
    (tx.nonce < judge.getNonce (EVMApp.Sender tx) →
      ∃ e, EVMApp.CheckTx o app tx = some (.error e, app)) ∧
    (judge.getBalance (EVMApp.Sender tx) < tx.cost →
      ∃ e, EVMApp.CheckTx o app tx = some (.error e, app)) ∧
    (∀ v app2, EVMApp.CheckTx o app tx = some (.ok v, app2) →
      (tx.Protected = false → v = Encoded.rlpOf tx) ∧
      (tx.Protected = true → ∃ ph, o.sendPayload tx = some ph ∧
        v = Encoded.rlpOf { tx with data := ph })) := by
  unfold EVMApp.CheckTx admitTx EVMApp.Sender
  cases hp : tx.Protected <;> by_cases hd : o.decodePayloadOK tx <;>
    by_cases hsc : app.secChanHost ≠ "" <;> cases hsp : o.sendPayload tx <;>
    simp [hp] at hj <;>
    simp only [hp, hd, hsc, hsp, hj, Bool.false_eq_true, if_false, if_true,
      eq_self_iff_true, not_true, not_false_iff, ite_true, ite_false,
      if_neg, if_pos] <;>
    (try split_ifs with hn hb) <;>
    refine ⟨?_, ?_, ?_, ?_⟩ <;>
    first
      | trivial
      | exact fun _ => ⟨_, rfl⟩
      | exact fun hlt => absurd hlt (by simpa using hn)
      | exact fun hlt => absurd hlt (by simpa [Tx.cost] using hb)
      | (intro res h
         simp only [Option.some.injEq] at h
         subst h
         rfl)
      | (intro v app2 h
         simp only [Option.some.injEq, Prod.mk.injEq, Except.ok.injEq] at h
         first
           | exact ⟨fun _ => h.1.symm, fun hc => by simp at hc⟩
           | exact ⟨fun hc => by simp at hc, fun _ => ⟨_, rfl, h.1.symm⟩⟩)
      | (intro v app2 h
         simp at h)

/-- Witness for C8: with the concrete live public handle, a concrete
stale-nonce transaction is rejected without touching the state. -/
theorem c8_checktx_admission_gate_witness :
    ∃ e, EVMApp.CheckTx oAllOK appC8 txU = some (.error e, appC8) :=
  (c8_checktx_admission_gate oAllOK appC8 txU [(1, ⟨0, 3, []⟩)] rfl).2.1
    (by decide)

/-- C9 is right and the code is wrong: the query entry point reads
`query[0]` before any length check (evm.go:553), so the empty byte
sequence indexes out of range and the process panics — modelled as
`none` — instead of the typed failure result the claim requires. -/
theorem c9_empty_query_aborts :
    EVMApp.Query oAllOK appEmpty [] = none := rfl

end AnnEvm
